import Mathlib

/-!
Shallow embedding of the seat-reservation core of `src/app.py`.

The persistent store is modelled as an explicit `DB` value (the two SQLAlchemy
relations `Transaction` and `Seat` become lists of records, the autoincrement
primary-key counter becomes `nextId`).  Each Flask handler becomes a pure
function from the request data and the current `DB` to the new `DB` and the
response.  Timestamps are integers (minutes); `PENDING_TIMEOUT_MINUTES` is the
`timeout` parameter.  `sanitize_text` is pure unicode I/O processing, so the
model's `name`/`phone` arguments stand for the already-sanitized strings.
`secrets.token_hex(16)` is a fresh random token, modelled as the explicit
`ticket_hash` argument of `book`.  Row-level locking (`with_for_update`)
serializes the handlers, which is exactly what applying these pure functions
one after the other models.
-/

namespace Seats

/-- Model of the `Transaction.status` values (src/app.py:131 and the sweeper's `expired`). -/
inductive Status where
  | pending
  | active
  | expired
  | revoked
  deriving DecidableEq, Repr

/-- The `Transaction` model (src/app.py:125-136). -/
structure Transaction where
  id : Nat
  ticket_hash : String
  name : String
  phone : String
  timestamp : Int
  status : Status
  booked_by_admin : Bool
  deriving DecidableEq, Repr

/-- The `Seat` model (src/app.py:139-148): `transaction_id` is the nullable
owner reference. -/
structure Seat where
  region : String
  seat_number : Int
  transaction_id : Option Nat
  deriving DecidableEq, Repr

/-- The whole database: the two relations plus the autoincrement counter for
`Transaction.id` (primary keys start at 1 and are never 0, so `Option Nat`
truthiness matches Python's). -/
structure DB where
  txns : List Transaction
  seats : List Seat
  nextId : Nat
  deriving DecidableEq, Repr

/-- Model of `Transaction.query.get(i)`: primary-key lookup.  Primary keys are unique,
so first-match semantics coincide with the unique row. -/
def findTxn (db : DB) (i : Nat) : Option Transaction :=
  db.txns.find? (fun t => t.id == i)

/-- Model of `Seat.query.filter_by(region=r, seat_number=n).first()` on a seat list. -/
def findSeatL (l : List Seat) (r : String) (n : Int) : Option Seat :=
  l.find? (fun s => s.region == r && s.seat_number == n)

/-- Model of `Seat.query.filter_by(region=r, seat_number=n).first()`. -/
def findSeat (db : DB) (r : String) (n : Int) : Option Seat :=
  findSeatL db.seats r n

/-- The availability test shared by `book_seats` (src/app.py:388-394) and
`check_seats` (src/app.py:331-337): the seat row exists, its
`transaction_id` is set, and the owning transaction's status is
`active` or `pending`. -/
def seatTaken (db : DB) (r : String) (n : Int) : Bool :=
  match findSeat db r n with
  | some s =>
    match s.transaction_id with
    | some i =>
      match findTxn db i with
      | some t => t.status == .active || t.status == .pending
      | none => false
    | none => false
  | none => false

/-- The sweep condition of `expire_pending_tickets` (src/app.py:154-159):
status `pending` and `timestamp < now - timeout` (strict, on the cutoff
`now - timedelta(minutes=timeout)`). -/
def isStale (timeout now : Int) (t : Transaction) : Bool :=
  t.status == .pending && decide (t.timestamp < now - timeout)

/-- Model of `expire_pending_tickets` (src/app.py:151-174): mark every stale pending
transaction `expired`, null the `transaction_id` of every seat those
transactions own, return how many transactions were expired. -/
def expire_pending_tickets (timeout now : Int) (db : DB) : DB × Nat :=
  let expired := db.txns.filter (isStale timeout now)
  let expiredIds := expired.map Transaction.id
  let txns := db.txns.map (fun t =>
    if isStale timeout now t then { t with status := Status.expired } else t)
  let seats := db.seats.map (fun s =>
    match s.transaction_id with
    | some i => if expiredIds.contains i then { s with transaction_id := none } else s
    | none => s)
  ({ db with txns := txns, seats := seats }, expired.length)

/-- Model of `get_seats` = `GET /api/seats` (src/app.py:311-320): run the sweeper, then
list every seat whose `transaction_id` is set and whose owner's status is
`active` or `pending`, as (region, number, status) triples. -/
def get_seats (timeout now : Int) (db : DB) : DB × List (String × Int × Status) :=
  let db1 := (expire_pending_tickets timeout now db).1
  let result := db1.seats.filterMap (fun s =>
    match s.transaction_id with
    | some i =>
      match findTxn db1 i with
      | some t =>
        if t.status == .active || t.status == .pending
        then some (s.region, s.seat_number, t.status)
        else none
      | none => none
    | none => none)
  (db1, result)

/-- Model of `check_seats` = `POST /api/check-seats` (src/app.py:323-345): NO sweep is
run; collect `"R-N"` strings for the requested seats that are taken,
return (available?, unavailable list). -/
def check_seats (db : DB) (query : List (String × Int)) : Bool × List String :=
  let unavailable := query.filterMap (fun p =>
    if seatTaken db p.1 p.2 then some (p.1 ++ "-" ++ toString p.2) else none)
  (unavailable.isEmpty, unavailable)

/-- One JSON value of a seat entry's `region` / `number` field. -/
inductive RawVal where
  | str (s : String)
  | num (n : Int)
  | other
  deriving DecidableEq, Repr

/-- One entry of the request's `seats` list, which is arbitrary JSON: either
not a dict, or a dict whose `region` / `number` keys may be missing. -/
inductive RawSeat where
  | notDict
  | dict (region : Option RawVal) (number : Option RawVal)
  deriving DecidableEq, Repr

/-- The per-entry structure validation of `book_seats` (src/app.py:378-382):
must be a dict holding both keys, and `region` must be a string of at most
10 characters.  The type of `number` is NOT checked. -/
def seatEntryError (sd : RawSeat) : Option (Nat × String) :=
  match sd with
  | .dict (some rv) (some _) =>
    match rv with
    | .str r => if r.length > 10 then some (400, "Region tidak valid") else none
    | _ => some (400, "Region tidak valid")
  | _ => some (400, "Format kursi tidak valid")

/-- The input validation of `book_seats` (src/app.py:366-382), on the
already-sanitized name and phone: first failing check wins. -/
def validate_book (name phone : String) (seats : List RawSeat) : Option (Nat × String) :=
  if name == "" || phone == "" || seats.isEmpty then
    some (400, "Name, phone and seats required")
  else if name.length > 100 then some (400, "Nama terlalu panjang (max 100 karakter)")
  else if phone.length > 20 then some (400, "Nomor telepon tidak valid")
  else if seats.length > 10 then some (400, "Maksimal 10 kursi per pemesanan")
  else seats.findSome? seatEntryError

/-- The well-typed payload of a seat entry. -/
def extractSeat (sd : RawSeat) : Option (String × Int) :=
  match sd with
  | .dict (some (.str r)) (some (.num n)) => some (r, n)
  | _ => none

/-- The conflict message of src/app.py:396. -/
def conflictMsg (r : String) (n : Int) : String :=
  "Kursi " ++ r ++ "-" ++ toString n ++ " sudah dipesan"

/-- The generic rolled-back-storage-failure response of src/app.py:420. -/
def storageErrorMsg : String := "Terjadi kesalahan, silakan coba lagi"

/-- The conflict-check loop of `book_seats` (src/app.py:386-396), in request
order.  A seat entry whose `number` is not an integer reaches the storage
layer, whose typed comparison raises; the except-handler rolls back and
answers the generic 500 (src/app.py:417-420). -/
def checkAndExtract (db : DB) : List RawSeat → Except (Nat × String) (List (String × Int))
  | [] => .ok []
  | sd :: rest =>
    match extractSeat sd with
    | some p =>
      if seatTaken db p.1 p.2 then .error (400, conflictMsg p.1 p.2)
      else
        match checkAndExtract db rest with
        | .ok ps => .ok (p :: ps)
        | .error e => .error e
    | none => .error (500, storageErrorMsg)

/-- The claim step for one seat (src/app.py:406-414): update the first
matching seat row's `transaction_id`, or insert a fresh owned row. -/
def setOwnerFirst (r : String) (n : Int) (i : Nat) : List Seat → List Seat
  | [] => [{ region := r, seat_number := n, transaction_id := some i }]
  | s :: rest =>
    if s.region == r && s.seat_number == n
    then { s with transaction_id := some i } :: rest
    else s :: setOwnerFirst r n i rest

/-- The claim loop of `book_seats` (src/app.py:406-414). -/
def claimSeats (pairs : List (String × Int)) (i : Nat) (l : List Seat) : List Seat :=
  pairs.foldl (fun acc p => setOwnerFirst p.1 p.2 i acc) l

/-- Model of `book_seats` = `POST /api/book` (src/app.py:348-439) minus rate limiting
and SSE broadcast: validate, conflict-check every seat, then create the
transaction (status `active` if admin, else `pending`) and claim every
seat, atomically.  Any error leaves the database untouched (rollback). -/
def book (isAdmin : Bool) (name phone : String) (seats : List RawSeat)
    (ticket_hash : String) (now : Int) (db : DB) :
    Except (Nat × String) (DB × String) :=
  match validate_book name phone seats with
  | some e => .error e
  | none =>
    match checkAndExtract db seats with
    | .error e => .error e
    | .ok pairs =>
      let i := db.nextId
      let st := if isAdmin then Status.active else Status.pending
      let t : Transaction :=
        { id := i, ticket_hash := ticket_hash, name := name, phone := phone,
          timestamp := now, status := st, booked_by_admin := isAdmin }
      .ok ({ txns := db.txns ++ [t], seats := claimSeats pairs i db.seats,
             nextId := i + 1 }, ticket_hash)

/-- Status update of the row fetched by `Transaction.query.get(i)`: the first
(and, by primary-key uniqueness, only) transaction with id `i`. -/
def setStatusFirst (i : Nat) (st : Status) : List Transaction → List Transaction
  | [] => []
  | t :: rest =>
    if t.id == i then { t with status := st } :: rest
    else t :: setStatusFirst i st rest

/-- Response of the admin endpoints: `{'success': True}` or an error with its
HTTP code. -/
inductive ApiResult where
  | ok
  | err (code : Nat) (msg : String)
  deriving DecidableEq, Repr

/-- Model of `approve_transaction` = `POST /api/approve/<id>` (src/app.py:442-462):
404 when unknown, 400 unless `pending`, else set status `active`.
Seats are never touched. -/
def approve_transaction (i : Nat) (db : DB) : DB × ApiResult :=
  match findTxn db i with
  | none => (db, .err 404 "Transaction not found")
  | some t =>
    if t.status == .pending
    then ({ db with txns := setStatusFirst i Status.active db.txns }, .ok)
    else (db, .err 400 "Transaction is not pending")

/-- Model of `Seat.query.filter_by(transaction_id=i)` then null each row's owner
(src/app.py:477-478 and 501-502). -/
def freeSeats (i : Nat) (l : List Seat) : List Seat :=
  l.map (fun s =>
    if s.transaction_id == some i then { s with transaction_id := none } else s)

/-- Model of `reject_transaction` = `POST /api/reject/<id>` (src/app.py:465-486):
404 when unknown; otherwise — whatever the current status — set status
`revoked` and free every owned seat. -/
def reject_transaction (i : Nat) (db : DB) : DB × ApiResult :=
  match findTxn db i with
  | none => (db, .err 404 "Transaction not found")
  | some _ =>
    ({ db with
       txns := setStatusFirst i Status.revoked db.txns,
       seats := freeSeats i db.seats }, .ok)

/-- Model of `revoke_transaction` = `POST /api/revoke/<id>` (src/app.py:489-510):
identical to `reject_transaction` except for the log line. -/
def revoke_transaction (i : Nat) (db : DB) : DB × ApiResult :=
  match findTxn db i with
  | none => (db, .err 404 "Transaction not found")
  | some _ =>
    ({ db with
       txns := setStatusFirst i Status.revoked db.txns,
       seats := freeSeats i db.seats }, .ok)

/-- Model of the `ticket_page` lookup (src/app.py:299):
`Transaction.query.filter_by(ticket_hash=h).first_or_404()`. -/
def lookupTicket (db : DB) (h : String) : Option Transaction :=
  db.txns.find? (fun t => t.ticket_hash == h)

/-- The `transaction.seats` backref: (region, number) of every seat row whose
`transaction_id` is `i`. -/
def seatsOf (db : DB) (i : Nat) : List (String × Int) :=
  (db.seats.filter (fun s => s.transaction_id == some i)).map
    (fun s => (s.region, s.seat_number))

/-- All mutating core operations, for lifecycle invariants. -/
inductive Op where
  | opBook (isAdmin : Bool) (name phone : String) (seats : List RawSeat)
      (h : String) (now : Int)
  | opApprove (i : Nat)
  | opReject (i : Nat)
  | opRevoke (i : Nat)
  | opSweep (timeout now : Int)

/-- Database after one operation (a failed `book` rolls back). -/
def applyOp (db : DB) : Op → DB
  | .opBook a nm ph ss h now =>
    match book a nm ph ss h now db with
    | .ok r => r.1
    | .error _ => db
  | .opApprove i => (approve_transaction i db).1
  | .opReject i => (reject_transaction i db).1
  | .opRevoke i => (revoke_transaction i db).1
  | .opSweep timeout now => (expire_pending_tickets timeout now db).1

/-- The status graph claimed by the spec: pending→active, pending→revoked,
pending→expired, active→revoked (plus staying put). -/
def claimEdge (a b : Status) : Bool :=
  a == b
    || (a == .pending && (b == .active || b == .revoked || b == .expired))
    || (a == .active && b == .revoked)

/-- The status graph the code actually realizes: the claimed one plus
expired→revoked (reject/revoke do not check the current status). -/
def codeEdge (a b : Status) : Bool :=
  claimEdge a b || (a == .expired && b == .revoked)

/-- Spec-side notion of a well-formed seat entry as the code checks it:
a dict with both keys whose `region` is a string of at most 10
characters; `number` may have any type. -/
def wellFormedSeat (sd : RawSeat) : Bool :=
  match sd with
  | .dict (some (.str r)) (some _) => decide (r.length ≤ 10)
  | _ => false

/-- Seat (r, n) is owned by transaction `i` in `db`. -/
def ownedBy (db : DB) (i : Nat) (r : String) (n : Int) : Prop :=
  ∃ s ∈ db.seats, s.region = r ∧ s.seat_number = n ∧ s.transaction_id = some i

/-- The whole `seats` payload is well-typed: every entry extracts. -/
def extractAll : List RawSeat → Option (List (String × Int))
  | [] => some []
  | sd :: rest =>
    match extractSeat sd, extractAll rest with
    | some p, some ps => some (p :: ps)
    | _, _ => none

/-- The spec's notion of a well-formed seat entry: a record with a region
string and a *number*. -/
def specWellFormedSeat (sd : RawSeat) : Bool :=
  match sd with
  | .dict (some (.str _)) (some (.num _)) => true
  | _ => false

/-- Concrete one-transaction database (transaction 1 in status `st`, created
at time 0, owning seat (A, 1)) used by counterexamples and witnesses. -/
def demoDB (st : Status) : DB :=
  { txns := [{ id := 1, ticket_hash := "h1", name := "Ann", phone := "08",
               timestamp := 0, status := st, booked_by_admin := false }],
    seats := [{ region := "A", seat_number := 1, transaction_id := some 1 }],
    nextId := 2 }

/-- A seat entry whose `number` field holds a string instead of a number. -/
def badNumberSeat : RawSeat := .dict (some (.str "A")) (some (.str "x"))

/-- State of `demoDB .pending` after an admin books seat (B, 2) with token h2:
used to witness the booking round-trip. -/
def demoBooked : DB :=
  { txns := [{ id := 1, ticket_hash := "h1", name := "Ann", phone := "08",
               timestamp := 0, status := .pending, booked_by_admin := false },
             { id := 2, ticket_hash := "h2", name := "Cid", phone := "082",
               timestamp := 5, status := .active, booked_by_admin := true }],
    seats := [{ region := "A", seat_number := 1, transaction_id := some 1 },
              { region := "B", seat_number := 2, transaction_id := some 2 }],
    nextId := 3 }

/-! ## Helper lemmas -/

theorem codeEdge_refl (a : Status) : codeEdge a a = true := by
  cases a <;> rfl

theorem codeEdge_to_revoked (a : Status) : codeEdge a Status.revoked = true := by
  cases a <;> rfl

/-- Lemma: `setStatusFirst` and primary-key lookup commute as expected. -/
theorem find?_setStatusFirst (j : Nat) (st : Status) (i : Nat)
    (l : List Transaction) :
    (setStatusFirst j st l).find? (fun t => t.id == i) =
      if i = j
      then (l.find? (fun t => t.id == i)).map (fun t => { t with status := st })
      else l.find? (fun t => t.id == i) := by
  induction l with
  | nil => simp [setStatusFirst]
  | cons t rest ih =>
    by_cases hj : t.id = j
    · simp only [setStatusFirst, if_pos (show (t.id == j) = true by simp [hj])]
      by_cases hij : i = j
      · have ht : (t.id == i) = true := by simp [hj, hij]
        rw [if_pos hij]
        simp [List.find?, ht]
      · have ht : (t.id == i) = false := by simp only [beq_eq_false_iff_ne]; omega
        rw [if_neg hij]
        simp [List.find?, ht]
    · simp only [setStatusFirst, if_neg (show ¬ (t.id == j) = true by simp [hj])]
      by_cases hti : t.id = i
      · have ht : (t.id == i) = true := by simp [hti]
        rw [if_neg (show ¬ i = j by omega)]
        simp [List.find?, ht]
      · have ht : (t.id == i) = false := by simp only [beq_eq_false_iff_ne]; omega
        simp only [List.find?, ht, cond_false]
        rw [ih]

/-- Freed seat lists never mention the freed owner. -/
theorem freeSeats_not_owner (i : Nat) (l : List Seat) :
    ∀ s ∈ freeSeats i l, s.transaction_id ≠ some i := by
  intro s hs
  rcases List.mem_map.1 hs with ⟨s0, _, rfl⟩
  by_cases h0 : s0.transaction_id = some i
  · simp [h0]
  · simp [show (s0.transaction_id == some i) = false by simpa using h0, h0]

/-! ## C10 — reject and revoke are the same operation -/

/-- C10:  `reject_transaction` and `revoke_transaction` perform exactly the
same state change and return the same result: for any database and id the
two functions agree; for an existing reservation of *any* status both
answer ok, set the status to `revoked`, and leave no seat owned by it. -/
theorem reject_revoke_equivalent (i : Nat) (db : DB) :
    reject_transaction i db = revoke_transaction i db ∧
    (∀ t, findTxn db i = some t →
      (reject_transaction i db).2 = ApiResult.ok ∧
      findTxn (reject_transaction i db).1 i =
        some { t with status := Status.revoked } ∧
      ∀ s ∈ (reject_transaction i db).1.seats, s.transaction_id ≠ some i) := by
  refine ⟨rfl, ?_⟩
  intro t ht
  refine ⟨?_, ?_, ?_⟩
  · simp [reject_transaction, ht]
  · have ht2 : List.find? (fun t0 => t0.id == i) db.txns = some t := ht
    simp only [reject_transaction, findTxn, ht2]
    rw [find?_setStatusFirst, if_pos rfl, ht2]
    rfl
  · simp only [reject_transaction, ht]
    exact freeSeats_not_owner i db.seats

/-- Witness for C10 at a concrete input: an *active* reservation owning a
seat is revoked and released by `reject`, identically to `revoke`. -/
theorem reject_revoke_equivalent_witness :
    reject_transaction 1 (demoDB .active) = revoke_transaction 1 (demoDB .active) ∧
    (reject_transaction 1 (demoDB .active)).2 = ApiResult.ok ∧
    findTxn (reject_transaction 1 (demoDB .active)).1 1 =
      some { id := 1, ticket_hash := "h1", name := "Ann", phone := "08",
             timestamp := 0, status := Status.revoked, booked_by_admin := false } ∧
    ∀ s ∈ (reject_transaction 1 (demoDB .active)).1.seats,
      s.transaction_id ≠ some 1 := by
  have h := reject_revoke_equivalent 1 (demoDB .active)
  have h2 := h.2 { id := 1, ticket_hash := "h1", name := "Ann", phone := "08",
                   timestamp := 0, status := Status.active,
                   booked_by_admin := false } (by decide)
  exact ⟨h.1, h2.1, h2.2.1, h2.2.2⟩

/-! ## C4 — approve succeeds exactly from pending -/

/-- C4:  `approve` succeeds and sets the status to `active` iff the
transaction exists and is `pending`; an existing transaction in any other
status yields the 400 invalid-state error with the database unchanged; an
unknown id yields 404 with the database unchanged; and seat ownership is
never touched by `approve`. -/
theorem approve_iff_pending (i : Nat) (db : DB) :
    (∀ t, findTxn db i = some t → t.status = Status.pending →
       approve_transaction i db =
         ({ db with txns := setStatusFirst i Status.active db.txns }, ApiResult.ok) ∧
       findTxn (approve_transaction i db).1 i =
         some { t with status := Status.active }) ∧
    (∀ t, findTxn db i = some t → t.status ≠ Status.pending →
       approve_transaction i db = (db, ApiResult.err 400 "Transaction is not pending")) ∧
    (findTxn db i = none →
       approve_transaction i db = (db, ApiResult.err 404 "Transaction not found")) ∧
    (approve_transaction i db).1.seats = db.seats := by
  refine ⟨?_, ?_, ?_, ?_⟩
  · intro t ht hp
    have hb : (t.status == Status.pending) = true := by simp [hp]
    refine ⟨by simp [approve_transaction, ht, hb], ?_⟩
    have ht2 : List.find? (fun t0 => t0.id == i) db.txns = some t := ht
    simp only [approve_transaction, findTxn, ht2, hb, if_pos]
    rw [find?_setStatusFirst, if_pos rfl, ht2]
    rfl
  · intro t ht hp
    have hb : (t.status == Status.pending) = false := by
      simp only [beq_eq_false_iff_ne]; exact hp
    simp [approve_transaction, ht, hb]
  · intro ht
    simp [approve_transaction, ht]
  · simp only [approve_transaction]
    rcases hfind : findTxn db i with _ | t
    · rfl
    · by_cases hp : (t.status == Status.pending) = true
      · simp [hp]
      · simp [hp]

/-- Witness for C4: approving pending transaction 1 succeeds and activates it;
approving it a second time fails with the invalid-state error. -/
theorem approve_iff_pending_witness :
    (approve_transaction 1 (demoDB .pending)).2 = ApiResult.ok ∧
    findTxn (approve_transaction 1 (demoDB .pending)).1 1 =
      some { id := 1, ticket_hash := "h1", name := "Ann", phone := "08",
             timestamp := 0, status := Status.active, booked_by_admin := false } ∧
    approve_transaction 1 (demoDB .active) =
      (demoDB .active, ApiResult.err 400 "Transaction is not pending") ∧
    approve_transaction 7 (demoDB .pending) =
      (demoDB .pending, ApiResult.err 404 "Transaction not found") := by
  have h1 := (approve_iff_pending 1 (demoDB .pending)).1
    { id := 1, ticket_hash := "h1", name := "Ann", phone := "08",
      timestamp := 0, status := Status.pending, booked_by_admin := false }
    (by decide) rfl
  have h2 := (approve_iff_pending 1 (demoDB .active)).2.1
    { id := 1, ticket_hash := "h1", name := "Ann", phone := "08",
      timestamp := 0, status := Status.active, booked_by_admin := false }
    (by decide) (by decide)
  have h3 := (approve_iff_pending 7 (demoDB .pending)).2.2.1 (by decide)
  exact ⟨by rw [h1.1], h1.2, h2, h3⟩

/-! ## Counterexamples -/

/-- C3 counterexample:  `reject` on an *expired* reservation flips its
status to `revoked` — an edge absent from the claimed transition graph
(reject/revoke never inspect the current status, src/app.py:470-480). -/
theorem reject_expired_breaks_claimed_edges :
    (findTxn (demoDB .expired) 1).map Transaction.status = some Status.expired ∧
    (reject_transaction 1 (demoDB .expired)).2 = ApiResult.ok ∧
    (findTxn (applyOp (demoDB .expired) (.opReject 1)) 1).map Transaction.status =
      some Status.revoked ∧
    claimEdge Status.expired Status.revoked = false := by decide

/-- C6 counterexample:  a pending reservation created at T = 0 with
timeout D = 30, swept at now = T + D = 30, is *not* expired (the code's
cutoff comparison `timestamp < now - timeout` is strict), although the
claim requires expiry whenever now ≥ T + D. -/
theorem sweep_boundary_not_expired :
    ((0 : Int) + 30 ≤ 30) = True ∧
    expire_pending_tickets 30 30 (demoDB .pending) = (demoDB .pending, 0) := by decide

/-- C7 counterexample:  `check_seats` runs no sweep: seat (A, 1) is owned
only by pending reservation 1, stale at now = 100 with timeout 30
(`get_seats` at the same instant reports nothing), yet `check_seats`
still reports it as taken. -/
theorem check_seats_reports_stale_pending :
    isStale 30 100 { id := 1, ticket_hash := "h1", name := "Ann", phone := "08",
                     timestamp := 0, status := Status.pending,
                     booked_by_admin := false } = true ∧
    (get_seats 30 100 (demoDB .pending)).2 = [] ∧
    check_seats (demoDB .pending) [("A", 1)] = (false, ["A-1"]) := by decide

/-- C9 counterexample:  a seat entry whose `number` is the string "x" is
not a record with a region string and a *number*, yet `validate_book`
accepts it (src/app.py:378-382 never checks the type of `number`); the
request then dies in the storage layer with the generic 500, not with a
validation error. -/
theorem validate_accepts_nonnumeric_seat_number :
    specWellFormedSeat badNumberSeat = false ∧
    validate_book "a" "1" [badNumberSeat] = none ∧
    book false "a" "1" [badNumberSeat] "h9" 0 (demoDB .pending) =
      .error (500, storageErrorMsg) := ⟨rfl, rfl, rfl⟩

/-! ## C6 — the expiry sweep -/

theorem map_id_of_mem {α : Type} (l : List α) (f : α → α) (h : ∀ x ∈ l, f x = x) :
    l.map f = l := by
  induction l with
  | nil => rfl
  | cons a l ih =>
    rw [List.map_cons, h a (List.mem_cons_self a l),
        ih (fun x hx => h x (List.mem_cons_of_mem a hx))]

/-- A sweep over a database with no stale pending transaction is a no-op
returning 0. -/
theorem sweep_of_no_stale (timeout now : Int) (db1 : DB)
    (h : ∀ t1 ∈ db1.txns, isStale timeout now t1 = false) :
    expire_pending_tickets timeout now db1 = (db1, 0) := by
  have hnil : db1.txns.filter (isStale timeout now) = [] :=
    List.filter_eq_nil_iff.2 (fun a ha => by simp [h a ha])
  have htx : db1.txns.map (fun t =>
      if isStale timeout now t then { t with status := Status.expired } else t) =
      db1.txns :=
    map_id_of_mem _ _ (fun t1 h1 => by simp [h t1 h1])
  have hseats : db1.seats.map (fun s =>
      match s.transaction_id with
      | some i => if ([] : List Nat).contains i then { s with transaction_id := none }
                  else s
      | none => s) = db1.seats :=
    map_id_of_mem _ _ (fun s1 _ => by
      rcases h1 : s1.transaction_id with _ | j <;> simp [h1, List.contains])
  simp only [expire_pending_tickets, hnil, htx, List.map_nil, List.length_nil, hseats]

/-- After a sweep no transaction is stale any more. -/
theorem isStale_after_sweep (timeout now : Int) (l : List Transaction) :
    ∀ t1 ∈ l.map (fun t =>
        if isStale timeout now t then { t with status := Status.expired } else t),
      isStale timeout now t1 = false := by
  intro t1 h1
  rcases List.mem_map.1 h1 with ⟨t0, _, rfl⟩
  cases h0 : isStale timeout now t0 with
  | true => simp [h0, isStale]
  | false => simp [h0]

/-- C6 amended:  a sweep at `now` expires a pending reservation created at
T with timeout D exactly when `T < now - D` (strictly — at `now = T + D`
nothing happens yet): the reservation becomes `expired`, no seat is left
owned by it, the returned count is the number of stale pending
reservations, and an immediate second sweep changes nothing and
returns 0. -/
theorem sweep_expires_strictly_stale (timeout now : Int) (db : DB) (t : Transaction)
    (ht : t ∈ db.txns) (hp : t.status = Status.pending)
    (hs : t.timestamp < now - timeout) :
    { t with status := Status.expired } ∈ (expire_pending_tickets timeout now db).1.txns ∧
    (∀ s ∈ (expire_pending_tickets timeout now db).1.seats,
       s.transaction_id ≠ some t.id) ∧
    (expire_pending_tickets timeout now db).2 =
      (db.txns.filter (isStale timeout now)).length ∧
    expire_pending_tickets timeout now (expire_pending_tickets timeout now db).1 =
      ((expire_pending_tickets timeout now db).1, 0) := by
  have hstale : isStale timeout now t = true := by simp [isStale, hp, hs]
  refine ⟨?_, ?_, rfl, ?_⟩
  · have := List.mem_map_of_mem
      (fun t => if isStale timeout now t then { t with status := Status.expired } else t) ht
    simpa [expire_pending_tickets, hstale] using this
  · intro s hsmem
    have hid : t.id ∈ (db.txns.filter (isStale timeout now)).map Transaction.id :=
      List.mem_map_of_mem Transaction.id (List.mem_filter.2 ⟨ht, hstale⟩)
    simp only [expire_pending_tickets] at hsmem
    rcases List.mem_map.1 hsmem with ⟨s0, _, rfl⟩
    rcases h0 : s0.transaction_id with _ | j
    · simp [h0]
    · by_cases hm : j ∈ (db.txns.filter (isStale timeout now)).map Transaction.id
      · simp [h0, hm]
      · have hne : j ≠ t.id := fun he => hm (he ▸ hid)
        simp [h0, hm, hne]
  · exact sweep_of_no_stale timeout now (expire_pending_tickets timeout now db).1
      (fun t1 h1 => isStale_after_sweep timeout now db.txns t1
        (by simpa [expire_pending_tickets] using h1))

/-- Witness for C6: pending reservation 1 (created at 0, timeout 30) swept at
now = 31 is expired, its seat released, the count is 1, and a second sweep
is a no-op returning 0. -/
theorem sweep_expires_strictly_stale_witness :
    ({ id := 1, ticket_hash := "h1", name := "Ann", phone := "08", timestamp := 0,
       status := Status.expired, booked_by_admin := false } : Transaction) ∈
      (expire_pending_tickets 30 31 (demoDB .pending)).1.txns ∧
    (∀ s ∈ (expire_pending_tickets 30 31 (demoDB .pending)).1.seats,
       s.transaction_id ≠ some 1) ∧
    (expire_pending_tickets 30 31 (demoDB .pending)).2 =
      ((demoDB .pending).txns.filter (isStale 30 31)).length ∧
    expire_pending_tickets 30 31 (expire_pending_tickets 30 31 (demoDB .pending)).1 =
      ((expire_pending_tickets 30 31 (demoDB .pending)).1, 0) :=
  sweep_expires_strictly_stale 30 31 (demoDB .pending)
    { id := 1, ticket_hash := "h1", name := "Ann", phone := "08", timestamp := 0,
      status := Status.pending, booked_by_admin := false }
    (by decide) rfl (by decide)

/-! ## C3 — the lifecycle transition graph -/

/-- The sweep's per-transaction update preserves primary-key lookup. -/
theorem find?_map_sweep (timeout now : Int) (l : List Transaction) (i : Nat) :
    (l.map (fun t =>
        if isStale timeout now t then { t with status := Status.expired } else t)).find?
        (fun t => t.id == i) =
      (l.find? (fun t => t.id == i)).map
        (fun t =>
          if isStale timeout now t then { t with status := Status.expired } else t) := by
  induction l with
  | nil => rfl
  | cons a l ih =>
    cases hst : isStale timeout now a <;>
      by_cases ha : (a.id == i) = true <;>
        simp [List.find?, hst, ha, ih]

/-- A successful booking appends exactly one new transaction and claims the
extracted seat pairs for it. -/
theorem book_ok_shape (isAdmin : Bool) (name phone ticket_hash : String)
    (seats : List RawSeat) (now : Int) (db : DB) (r : DB × String)
    (hb : book isAdmin name phone seats ticket_hash now db = .ok r) :
    ∃ pairs, checkAndExtract db seats = .ok pairs ∧
      r = ({ txns := db.txns ++
              [{ id := db.nextId, ticket_hash := ticket_hash, name := name,
                 phone := phone, timestamp := now,
                 status := if isAdmin then Status.active else Status.pending,
                 booked_by_admin := isAdmin }],
             seats := claimSeats pairs db.nextId db.seats,
             nextId := db.nextId + 1 }, ticket_hash) := by
  unfold book at hb
  rcases hv : validate_book name phone seats with _ | e
  · rw [hv] at hb
    cases hce : checkAndExtract db seats with
    | error e => rw [hce] at hb; exact absurd hb (by simp)
    | ok pairs =>
      rw [hce] at hb
      simp only [Except.ok.injEq] at hb
      exact ⟨pairs, rfl, hb.symm⟩
  · rw [hv] at hb; exact absurd hb (by simp)

/-- C3 amended:  across every operation (book, approve, reject, revoke,
sweep), the status of any reservation id moves only along the edges
pending→active, pending→revoked, pending→expired, active→revoked, or
expired→revoked (the last one realized because reject/revoke never check
the current status), or stays unchanged; `revoked` is terminal. -/
theorem status_transitions_follow_code_edges (db : DB) (op : Op) (i : Nat)
    (t t' : Transaction) (h : findTxn db i = some t)
    (h' : findTxn (applyOp db op) i = some t') :
    codeEdge t.status t'.status = true := by
  have hL : List.find? (fun t0 => t0.id == i) db.txns = some t := h
  cases op with
  | opBook a nm ph ss hh now =>
    cases hb : book a nm ph ss hh now db with
    | error e =>
      simp only [applyOp, hb] at h'
      rw [h] at h'
      obtain rfl : t = t' := Option.some.inj h'
      exact codeEdge_refl _
    | ok r =>
      simp only [applyOp, hb] at h'
      rcases book_ok_shape a nm ph hh ss now db r hb with ⟨pairs, _, rfl⟩
      have h2 : (db.txns ++
          [({ id := db.nextId, ticket_hash := hh, name := nm, phone := ph,
              timestamp := now,
              status := if a then Status.active else Status.pending,
              booked_by_admin := a } : Transaction)]).find?
          (fun t0 => t0.id == i) = some t' := h'
      rw [List.find?_append, hL] at h2
      obtain rfl : t = t' := Option.some.inj h2
      exact codeEdge_refl _
  | opApprove j =>
    cases hf : findTxn db j with
    | none =>
      simp only [applyOp, approve_transaction, hf] at h'
      rw [h] at h'
      obtain rfl : t = t' := Option.some.inj h'
      exact codeEdge_refl _
    | some u =>
      by_cases hu : (u.status == Status.pending) = true
      · simp only [applyOp, approve_transaction, hf, hu, if_true] at h'
        have h2 : (setStatusFirst j Status.active db.txns).find?
            (fun t0 => t0.id == i) = some t' := h'
        rw [find?_setStatusFirst] at h2
        by_cases hij : i = j
        · rw [if_pos hij, hL] at h2
          obtain rfl : { t with status := Status.active } = t' :=
            Option.some.inj h2
          have htu : t = u := by
            rw [hij] at hL
            have h3 : findTxn db j = some t := hL
            rw [hf] at h3
            exact (Option.some.inj h3).symm
          have hts : t.status = Status.pending := by
            rw [htu]; exact beq_iff_eq.mp hu
          simp [hts, codeEdge, claimEdge]
        · rw [if_neg hij, hL] at h2
          obtain rfl : t = t' := Option.some.inj h2
          exact codeEdge_refl _
      · have hu2 : (u.status == Status.pending) = false := by
          rwa [Bool.not_eq_true] at hu
        simp only [applyOp, approve_transaction, hf, hu2, Bool.false_eq_true,
          if_false] at h'
        rw [h] at h'
        obtain rfl : t = t' := Option.some.inj h'
        exact codeEdge_refl _
  | opReject j =>
    cases hf : findTxn db j with
    | none =>
      simp only [applyOp, reject_transaction, hf] at h'
      rw [h] at h'
      obtain rfl : t = t' := Option.some.inj h'
      exact codeEdge_refl _
    | some u =>
      simp only [applyOp, reject_transaction, hf] at h'
      have h2 : (setStatusFirst j Status.revoked db.txns).find?
          (fun t0 => t0.id == i) = some t' := h'
      rw [find?_setStatusFirst] at h2
      by_cases hij : i = j
      · rw [if_pos hij, hL] at h2
        obtain rfl : { t with status := Status.revoked } = t' :=
          Option.some.inj h2
        exact codeEdge_to_revoked _
      · rw [if_neg hij, hL] at h2
        obtain rfl : t = t' := Option.some.inj h2
        exact codeEdge_refl _
  | opRevoke j =>
    cases hf : findTxn db j with
    | none =>
      simp only [applyOp, revoke_transaction, hf] at h'
      rw [h] at h'
      obtain rfl : t = t' := Option.some.inj h'
      exact codeEdge_refl _
    | some u =>
      simp only [applyOp, revoke_transaction, hf] at h'
      have h2 : (setStatusFirst j Status.revoked db.txns).find?
          (fun t0 => t0.id == i) = some t' := h'
      rw [find?_setStatusFirst] at h2
      by_cases hij : i = j
      · rw [if_pos hij, hL] at h2
        obtain rfl : { t with status := Status.revoked } = t' :=
          Option.some.inj h2
        exact codeEdge_to_revoked _
      · rw [if_neg hij, hL] at h2
        obtain rfl : t = t' := Option.some.inj h2
        exact codeEdge_refl _
  | opSweep timeout now =>
    simp only [applyOp, expire_pending_tickets] at h'
    have h2 : (db.txns.map (fun t =>
        if isStale timeout now t then { t with status := Status.expired }
        else t)).find? (fun t0 => t0.id == i) = some t' := h'
    rw [find?_map_sweep, hL] at h2
    obtain rfl :
        (if isStale timeout now t then { t with status := Status.expired } else t)
          = t' := Option.some.inj h2
    cases hst : isStale timeout now t
    · simp only [hst, if_false, Bool.false_eq_true]
      exact codeEdge_refl _
    · have hts : t.status = Status.pending := by
        have h4 := (Bool.and_eq_true _ _).mp hst
        exact beq_iff_eq.mp h4.1
      simp [hst, hts, codeEdge, claimEdge]

/-- Witness for C3 amended: approving pending reservation 1 moves its status
along the pending→active edge. -/
theorem status_transitions_follow_code_edges_witness :
    findTxn (demoDB .pending) 1 =
      some { id := 1, ticket_hash := "h1", name := "Ann", phone := "08",
             timestamp := 0, status := Status.pending, booked_by_admin := false } ∧
    findTxn (applyOp (demoDB .pending) (.opApprove 1)) 1 =
      some { id := 1, ticket_hash := "h1", name := "Ann", phone := "08",
             timestamp := 0, status := Status.active, booked_by_admin := false } ∧
    codeEdge Status.pending Status.active = true :=
  ⟨by decide, by decide,
    status_transitions_follow_code_edges (demoDB .pending) (.opApprove 1) 1
      { id := 1, ticket_hash := "h1", name := "Ann", phone := "08",
        timestamp := 0, status := Status.pending, booked_by_admin := false }
      { id := 1, ticket_hash := "h1", name := "Ann", phone := "08",
        timestamp := 0, status := Status.active, booked_by_admin := false }
      (by decide) (by decide)⟩

/-! ## C1 / C8 — the booking path -/

/-- On a well-typed seat list the conflict-check loop answers the first taken
seat, or the full extracted pair list. -/
theorem checkAndExtract_eq (db : DB) (seats : List RawSeat)
    (pairs : List (String × Int)) (he : extractAll seats = some pairs) :
    checkAndExtract db seats =
      match pairs.find? (fun p => seatTaken db p.1 p.2) with
      | some p => .error (400, conflictMsg p.1 p.2)
      | none => .ok pairs := by
  induction seats generalizing pairs with
  | nil =>
    obtain rfl : ([] : List (String × Int)) = pairs := Option.some.inj he
    simp [checkAndExtract, List.find?]
  | cons sd rest ih =>
    simp only [extractAll] at he
    cases hx : extractSeat sd with
    | none => rw [hx] at he; exact absurd he (by simp)
    | some p =>
      rw [hx] at he
      cases hr : extractAll rest with
      | none => rw [hr] at he; exact absurd he (by simp)
      | some ps =>
        rw [hr] at he
        obtain rfl : p :: ps = pairs := Option.some.inj he
        simp only [checkAndExtract, hx]
        by_cases htk : seatTaken db p.1 p.2 = true
        · rw [if_pos htk]
          simp [List.find?, htk]
        · rw [if_neg htk]
          have hih := ih ps hr
          cases hq : ps.find? (fun p => seatTaken db p.1 p.2) with
          | some q =>
            rw [hq] at hih
            rw [hih]
            simp [List.find?, htk, hq]
          | none =>
            rw [hq] at hih
            rw [hih]
            simp [List.find?, htk, hq]

/-- After claiming (r, n), the first (r, n) row is owned by the claimer. -/
theorem findSeatL_setOwnerFirst_self (r : String) (n : Int) (i : Nat)
    (l : List Seat) :
    (findSeatL (setOwnerFirst r n i l) r n).bind Seat.transaction_id = some i := by
  induction l with
  | nil => simp [setOwnerFirst, findSeatL, List.find?]
  | cons s rest ih =>
    by_cases hm : (s.region == r && s.seat_number == n) = true
    · simp [setOwnerFirst, hm, findSeatL, List.find?]
    · simp only [setOwnerFirst, if_neg hm, findSeatL, List.find?,
        Bool.not_eq_true] at ih ⊢
      rw [Bool.not_eq_true] at hm
      simp [hm]
      exact ih

/-- Claiming one key leaves lookup of every other key unchanged. -/
theorem findSeatL_setOwnerFirst_other (r0 : String) (n0 : Int) (i : Nat)
    (r : String) (n : Int) (l : List Seat) (hne : ¬(r0 = r ∧ n0 = n)) :
    findSeatL (setOwnerFirst r0 n0 i l) r n = findSeatL l r n := by
  have hkey : (r0 == r && n0 == n) = false := by
    cases hr : r0 == r <;> cases hn : n0 == n <;>
      simp_all [beq_iff_eq]
  induction l with
  | nil => simp [setOwnerFirst, findSeatL, List.find?, hkey]
  | cons s rest ih =>
    by_cases hm : (s.region == r0 && s.seat_number == n0) = true
    · have hm2 := (Bool.and_eq_true _ _).mp hm
      have hsr : s.region = r0 := beq_iff_eq.mp hm2.1
      have hsn : s.seat_number = n0 := beq_iff_eq.mp hm2.2
      have hsf : (s.region == r && s.seat_number == n) = false := by
        rw [hsr, hsn]; exact hkey
      simp [setOwnerFirst, hm, findSeatL, List.find?, hsf]
    · simp only [setOwnerFirst, if_neg hm]
      cases hs : (s.region == r && s.seat_number == n) <;>
        simp_all [findSeatL, List.find?, hs]

/-- Every row of a claimed list is either one of the claimed keys (owned by
the claimer) or an original row. -/
theorem mem_setOwnerFirst (r : String) (n : Int) (i : Nat) (l : List Seat) :
    ∀ s ∈ setOwnerFirst r n i l,
      (s.region = r ∧ s.seat_number = n ∧ s.transaction_id = some i) ∨ s ∈ l := by
  induction l with
  | nil =>
    intro s hs
    simp only [setOwnerFirst, List.mem_singleton] at hs
    subst hs
    exact Or.inl ⟨rfl, rfl, rfl⟩
  | cons s0 rest ih =>
    intro s hs
    by_cases hm : (s0.region == r && s0.seat_number == n) = true
    · simp only [setOwnerFirst, if_pos hm] at hs
      rcases List.mem_cons.1 hs with rfl | hs2
      · have hm2 := (Bool.and_eq_true _ _).mp hm
        exact Or.inl ⟨beq_iff_eq.mp hm2.1, beq_iff_eq.mp hm2.2, rfl⟩
      · exact Or.inr (List.mem_cons_of_mem _ hs2)
    · simp only [setOwnerFirst, if_neg hm] at hs
      rcases List.mem_cons.1 hs with rfl | hs2
      · exact Or.inr (List.mem_cons_self _ _)
      · rcases ih s hs2 with h1 | h2
        · exact Or.inl h1
        · exact Or.inr (List.mem_cons_of_mem _ h2)

theorem claimSeats_mem (pairs : List (String × Int)) (i : Nat) (l : List Seat) :
    ∀ s ∈ claimSeats pairs i l,
      (∃ p ∈ pairs, s.region = p.1 ∧ s.seat_number = p.2 ∧
        s.transaction_id = some i) ∨ s ∈ l := by
  induction pairs generalizing l with
  | nil => intro s hs; exact Or.inr hs
  | cons q rest ih =>
    intro s hs
    rcases ih (setOwnerFirst q.1 q.2 i l) s hs with ⟨p, hp, hprop⟩ | hmem
    · exact Or.inl ⟨p, List.mem_cons_of_mem _ hp, hprop⟩
    · rcases mem_setOwnerFirst q.1 q.2 i l s hmem with h1 | h2
      · exact Or.inl ⟨q, List.mem_cons_self _ _, h1⟩
      · exact Or.inr h2

theorem claimSeats_owner (i : Nat) (pairs : List (String × Int)) (l : List Seat)
    (p : String × Int)
    (hp : p ∈ pairs ∨ (findSeatL l p.1 p.2).bind Seat.transaction_id = some i) :
    (findSeatL (claimSeats pairs i l) p.1 p.2).bind Seat.transaction_id = some i := by
  induction pairs generalizing l with
  | nil =>
    rcases hp with hmem | hown
    · exact absurd hmem (List.not_mem_nil p)
    · exact hown
  | cons q rest ih =>
    by_cases hq : q = p
    · subst hq
      exact ih (setOwnerFirst q.1 q.2 i l)
        (Or.inr (findSeatL_setOwnerFirst_self q.1 q.2 i l))
    · have hne : ¬(q.1 = p.1 ∧ q.2 = p.2) := by
        rintro ⟨h1, h2⟩
        exact hq (Prod.ext h1 h2)
      rcases hp with hmem | hown
      · rcases List.mem_cons.1 hmem with rfl | hrest
        · exact absurd rfl hq
        · exact ih (setOwnerFirst q.1 q.2 i l) (Or.inl hrest)
      · refine ih (setOwnerFirst q.1 q.2 i l) (Or.inr ?_)
        rw [findSeatL_setOwnerFirst_other q.1 q.2 i p.1 p.2 l hne]
        exact hown

/-- C1:  on a request that passes input validation with well-typed seats,
either some requested seat is taken by a pending/active reservation — then
`book` answers the conflict error naming the *first* such seat in request
order and, the transaction having rolled back, nothing changes — or no
requested seat is taken, and `book` creates the reservation `db.nextId`
and makes it the owner of every requested seat. -/
theorem book_conflict_or_claims_all (isAdmin : Bool) (name phone h : String)
    (now : Int) (seats : List RawSeat) (pairs : List (String × Int)) (db : DB)
    (hv : validate_book name phone seats = none)
    (he : extractAll seats = some pairs) :
    (∀ p, pairs.find? (fun q => seatTaken db q.1 q.2) = some p →
       book isAdmin name phone seats h now db = .error (400, conflictMsg p.1 p.2)) ∧
    (pairs.find? (fun q => seatTaken db q.1 q.2) = none →
       ∃ db2, book isAdmin name phone seats h now db = .ok (db2, h) ∧
         ∀ p ∈ pairs, (findSeat db2 p.1 p.2).bind Seat.transaction_id =
           some db.nextId) := by
  constructor
  · intro p hfind
    simp only [book, hv, checkAndExtract_eq db seats pairs he, hfind]
  · intro hnone
    refine ⟨{ txns := db.txns ++
                [{ id := db.nextId, ticket_hash := h, name := name,
                   phone := phone, timestamp := now,
                   status := if isAdmin then Status.active else Status.pending,
                   booked_by_admin := isAdmin }],
              seats := claimSeats pairs db.nextId db.seats,
              nextId := db.nextId + 1 }, ?_, ?_⟩
    · simp only [book, hv, checkAndExtract_eq db seats pairs he, hnone]
    · intro p hp
      exact claimSeats_owner db.nextId pairs db.seats p (Or.inl hp)

/-- Witness for C1: on `demoDB .pending` (seat (A,1) held by a pending
reservation) a request for (A,1) is refused naming A-1, while a request
for (B,2) succeeds and hands (B,2) to the new reservation. -/
theorem book_conflict_or_claims_all_witness :
    book false "Bob" "081" [RawSeat.dict (some (.str "A")) (some (.num 1))] "h2" 5
      (demoDB .pending) = .error (400, conflictMsg "A" 1) ∧
    ∃ db2,
      book false "Bob" "081" [RawSeat.dict (some (.str "B")) (some (.num 2))] "h2" 5
        (demoDB .pending) = .ok (db2, "h2") ∧
      ∀ p ∈ [("B", (2 : Int))],
        (findSeat db2 p.1 p.2).bind Seat.transaction_id =
          some (demoDB .pending).nextId := by
  constructor
  · exact (book_conflict_or_claims_all false "Bob" "081" "h2" 5
      [RawSeat.dict (some (.str "A")) (some (.num 1))] [("A", 1)]
      (demoDB .pending) rfl rfl).1 ("A", 1) (by decide)
  · exact (book_conflict_or_claims_all false "Bob" "081" "h2" 5
      [RawSeat.dict (some (.str "B")) (some (.num 2))] [("B", 2)]
      (demoDB .pending) rfl rfl).2 (by decide)

/-- C8:  a successful `book` returning token `tk` (with a fresh token and a
fresh transaction id, as the unique constraint and the autoincrement
guarantee) round-trips: looking the token up yields a reservation with the
booked name, phone and exactly the booked seat set, whose status is
`active` iff the booking was admin-originated, else `pending`. -/
theorem book_lookup_roundtrip (isAdmin : Bool) (name phone h : String) (now : Int)
    (seats : List RawSeat) (pairs : List (String × Int)) (db db2 : DB) (tk : String)
    (he : extractAll seats = some pairs)
    (hfresh : ∀ t0 ∈ db.txns, t0.ticket_hash ≠ h)
    (howner : ∀ s ∈ db.seats, s.transaction_id ≠ some db.nextId)
    (hb : book isAdmin name phone seats h now db = .ok (db2, tk)) :
    tk = h ∧
    ∃ t, lookupTicket db2 tk = some t ∧ t.name = name ∧ t.phone = phone ∧
      t.status = (if isAdmin then Status.active else Status.pending) ∧
      ∀ p, p ∈ seatsOf db2 t.id ↔ p ∈ pairs := by
  rcases book_ok_shape isAdmin name phone h seats now db (db2, tk) hb with
    ⟨ps0, hce, hr⟩
  rw [checkAndExtract_eq db seats pairs he] at hce
  cases hq : pairs.find? (fun p => seatTaken db p.1 p.2) with
  | some q => rw [hq] at hce; exact absurd hce (by simp)
  | none =>
    rw [hq] at hce
    obtain rfl : pairs = ps0 := Except.ok.inj hce
    simp only [Prod.mk.injEq] at hr
    obtain ⟨rfl, hk⟩ := hr
    refine ⟨hk, ?_⟩
    rw [hk]
    have hnofind : db.txns.find? (fun t => t.ticket_hash == h) = none :=
      List.find?_eq_none.2 (fun x hx => by simp [hfresh x hx])
    refine ⟨({ id := db.nextId, ticket_hash := h, name := name, phone := phone,
               timestamp := now,
               status := if isAdmin then Status.active else Status.pending,
               booked_by_admin := isAdmin } : Transaction),
      ?_, rfl, rfl, rfl, ?_⟩
    · simp only [lookupTicket]
      rw [List.find?_append, hnofind]
      simp [List.find?]
    · intro p
      constructor
      · intro hmem
        simp only [seatsOf, List.mem_map] at hmem
        rcases hmem with ⟨s, hsf, rfl⟩
        have hsf2 := List.mem_filter.1 hsf
        have htid : s.transaction_id = some db.nextId := by
          have h3 := hsf2.2
          simpa using h3
        rcases claimSeats_mem pairs db.nextId db.seats s hsf2.1 with
          ⟨q, hq2, hprop⟩ | hmem2
        · have hpq : (s.region, s.seat_number) = q := Prod.ext hprop.1 hprop.2.1
          rw [hpq]
          exact hq2
        · exact absurd htid (howner s hmem2)
      · intro hp
        have hown := claimSeats_owner db.nextId pairs db.seats p (Or.inl hp)
        cases hfs : findSeatL (claimSeats pairs db.nextId db.seats) p.1 p.2 with
        | none => rw [hfs] at hown; exact absurd hown (by simp)
        | some s =>
          rw [hfs] at hown
          have hsmem := List.mem_of_find?_eq_some hfs
          have hpred := List.find?_some hfs
          have hpr := (Bool.and_eq_true _ _).mp hpred
          have hr1 : s.region = p.1 := beq_iff_eq.mp hpr.1
          have hn1 : s.seat_number = p.2 := beq_iff_eq.mp hpr.2
          have htid : s.transaction_id = some db.nextId := by simpa using hown
          simp only [seatsOf, List.mem_map]
          refine ⟨s, List.mem_filter.2 ⟨hsmem, by simp [htid]⟩, ?_⟩
          exact Prod.ext hr1 hn1

/-- Witness for C8: the admin booking of seat (B, 2) with token h2 on
`demoDB .pending` round-trips through `lookupTicket`. -/
theorem book_lookup_roundtrip_witness :
    ("h2" : String) = "h2" ∧
    ∃ t, lookupTicket demoBooked "h2" = some t ∧ t.name = "Cid" ∧
      t.phone = "082" ∧
      t.status = (if true then Status.active else Status.pending) ∧
      ∀ p, p ∈ seatsOf demoBooked t.id ↔ p ∈ [("B", (2 : Int))] :=
  book_lookup_roundtrip true "Cid" "082" "h2" 5
    [RawSeat.dict (some (.str "B")) (some (.num 2))] [("B", 2)]
    (demoDB .pending) demoBooked "h2" rfl (by decide) (by decide) rfl

/-! ## C5 — reject/revoke release every owned seat -/

/-- Rows surviving a release followed by a sweep keep their key, and either
lost their owner or kept an owner different from the released one. -/
theorem sweep_free_mem (ids : List Nat) (i : Nat) (l : List Seat) :
    ∀ s1 ∈ (l.map (fun s =>
        if s.transaction_id == some i then { s with transaction_id := none }
        else s)).map (fun s =>
          match s.transaction_id with
          | some j => if ids.contains j then { s with transaction_id := none } else s
          | none => s),
      ∃ s0 ∈ l, s1.region = s0.region ∧ s1.seat_number = s0.seat_number ∧
        (s1.transaction_id = none ∨
          (s1.transaction_id = s0.transaction_id ∧
            s0.transaction_id ≠ some i)) := by
  intro s1 hs1
  rcases List.mem_map.1 hs1 with ⟨y, hy, rfl⟩
  rcases List.mem_map.1 hy with ⟨s0, hs0, rfl⟩
  refine ⟨s0, hs0, ?_⟩
  by_cases hA : (s0.transaction_id == some i) = true
  · simp [hA]
  · have hAne : s0.transaction_id ≠ some i := by
      intro hcon
      exact hA (by simp [hcon])
    simp only [if_neg hA]
    rcases h0 : s0.transaction_id with _ | j0
    · simp [h0]
    · have hji : j0 ≠ i := by
        intro he
        exact hAne (by rw [h0, he])
      by_cases hc : j0 ∈ ids
      · simp [h0, hc]
      · simp [h0, hc, hji]

/-- C5:  for an existing reservation (with seat keys unique, as the
database unique constraint guarantees), `reject` and `revoke` answer ok,
leave no seat owned by that reservation, and a subsequent `get_seats`
lists none of the seats the reservation owned. -/
theorem reject_revoke_release_all_seats (i : Nat) (db : DB) (t : Transaction)
    (timeout now : Int) (ht : findTxn db i = some t)
    (hnodup : (db.seats.map (fun s => (s.region, s.seat_number))).Nodup) :
    (reject_transaction i db).2 = ApiResult.ok ∧
    (revoke_transaction i db).2 = ApiResult.ok ∧
    (∀ s ∈ (reject_transaction i db).1.seats, s.transaction_id ≠ some i) ∧
    (∀ s ∈ (revoke_transaction i db).1.seats, s.transaction_id ≠ some i) ∧
    (∀ r n st, (r, n, st) ∈ (get_seats timeout now (reject_transaction i db).1).2 →
       ¬ ownedBy db i r n) ∧
    (∀ r n st, (r, n, st) ∈ (get_seats timeout now (revoke_transaction i db).1).2 →
       ¬ ownedBy db i r n) := by
  have hrr : revoke_transaction i db = reject_transaction i db := rfl
  have hok : (reject_transaction i db).2 = ApiResult.ok := by
    simp [reject_transaction, ht]
  have hfree : ∀ s ∈ (reject_transaction i db).1.seats,
      s.transaction_id ≠ some i := by
    simp only [reject_transaction, ht]
    exact freeSeats_not_owner i db.seats
  have hmain : ∀ r n st,
      (r, n, st) ∈ (get_seats timeout now (reject_transaction i db).1).2 →
      ¬ ownedBy db i r n := by
    intro r n st hmem hown
    rcases hown with ⟨s2, hs2, hreg2, hnum2, htid2⟩
    simp only [get_seats] at hmem
    rcases List.mem_filterMap.1 hmem with ⟨s1, hs1mem, hF⟩
    split at hF
    · rename_i j h1
      split at hF
      · rename_i u h2
        split at hF
        · have h3 := Option.some.inj hF
          simp only [Prod.mk.injEq] at h3
          obtain ⟨hr1, hn1, _⟩ := h3
          simp only [reject_transaction, ht, expire_pending_tickets,
            freeSeats] at hs1mem
          rcases sweep_free_mem _ i db.seats s1 hs1mem with
            ⟨s0, hs0, hk1, hk2, hcase⟩
          rcases hcase with hnone | ⟨heq, hne⟩
          · rw [h1] at hnone; cases hnone
          · have hkeys : (fun s : Seat => (s.region, s.seat_number)) s0 =
                (fun s : Seat => (s.region, s.seat_number)) s2 := by
              simp only []
              rw [← hk1, ← hk2, hr1, hn1, hreg2, hnum2]
            have h02 : s0 = s2 :=
              List.inj_on_of_nodup_map hnodup hs0 hs2 hkeys
            rw [h02] at hne
            exact hne htid2
        · exact absurd hF (by simp)
      · exact absurd hF (by simp)
    · exact absurd hF (by simp)
  refine ⟨hok, by rw [hrr]; exact hok, hfree, by rw [hrr]; exact hfree,
    hmain, by rw [hrr]; exact hmain⟩

/-- Witness for C5: rejecting/revoking active reservation 1 releases its
seat (A, 1) and `get_seats` no longer lists it. -/
theorem reject_revoke_release_all_seats_witness :
    (reject_transaction 1 (demoDB .active)).2 = ApiResult.ok ∧
    (revoke_transaction 1 (demoDB .active)).2 = ApiResult.ok ∧
    (∀ s ∈ (reject_transaction 1 (demoDB .active)).1.seats,
       s.transaction_id ≠ some 1) ∧
    (∀ s ∈ (revoke_transaction 1 (demoDB .active)).1.seats,
       s.transaction_id ≠ some 1) ∧
    (∀ r n st,
       (r, n, st) ∈ (get_seats 30 0 (reject_transaction 1 (demoDB .active)).1).2 →
       ¬ ownedBy (demoDB .active) 1 r n) ∧
    (∀ r n st,
       (r, n, st) ∈ (get_seats 30 0 (revoke_transaction 1 (demoDB .active)).1).2 →
       ¬ ownedBy (demoDB .active) 1 r n) :=
  reject_revoke_release_all_seats 1 (demoDB .active)
    { id := 1, ticket_hash := "h1", name := "Ann", phone := "08", timestamp := 0,
      status := Status.active, booked_by_admin := false }
    30 0 (by decide) (by decide)

/-! ## C7 — availability reads and the sweeper -/

/-- C7 amended:  `get_seats` reads the database left by the Expiry Sweeper
(first conjunct), so the owner behind every entry it reports is a
reservation that is not stale — no seat owned only by a stale pending
reservation is reported.  `check_seats`, the other availability read,
runs no sweep (see the counterexample). -/
theorem get_seats_sweeps_before_reading (timeout now : Int) (db : DB)
    (r : String) (n : Int) (st : Status)
    (hmem : (r, n, st) ∈ (get_seats timeout now db).2) :
    (get_seats timeout now db).1 = (expire_pending_tickets timeout now db).1 ∧
    ∃ s j u, s ∈ (expire_pending_tickets timeout now db).1.seats ∧
      s.region = r ∧ s.seat_number = n ∧ s.transaction_id = some j ∧
      findTxn (expire_pending_tickets timeout now db).1 j = some u ∧
      u.status = st ∧ (st = Status.active ∨ st = Status.pending) ∧
      isStale timeout now u = false := by
  refine ⟨rfl, ?_⟩
  simp only [get_seats] at hmem
  rcases List.mem_filterMap.1 hmem with ⟨s1, hs1mem, hF⟩
  split at hF
  · rename_i j h1
    split at hF
    · rename_i u h2
      split at hF
      · rename_i h4
        have h3 := Option.some.inj hF
        simp only [Prod.mk.injEq] at h3
        obtain ⟨hr1, hn1, hst⟩ := h3
        have humem : u ∈ (expire_pending_tickets timeout now db).1.txns :=
          List.mem_of_find?_eq_some h2
        have hstale : isStale timeout now u = false := by
          apply isStale_after_sweep timeout now db.txns u
          simpa [expire_pending_tickets] using humem
        refine ⟨s1, j, u, hs1mem, hr1, hn1, h1, h2, hst, ?_, hstale⟩
        rcases (Bool.or_eq_true _ _).mp h4 with h5 | h5
        · exact Or.inl (hst ▸ beq_iff_eq.mp h5)
        · exact Or.inr (hst ▸ beq_iff_eq.mp h5)
      · exact absurd hF (by simp)
    · exact absurd hF (by simp)
  · exact absurd hF (by simp)

/-- Witness for C7 amended: at now = 10 the pending reservation of
`demoDB .pending` is fresh and its seat is reported, with a non-stale
owner. -/
theorem get_seats_sweeps_before_reading_witness :
    ("A", (1 : Int), Status.pending) ∈ (get_seats 30 10 (demoDB .pending)).2 ∧
    ((get_seats 30 10 (demoDB .pending)).1 =
       (expire_pending_tickets 30 10 (demoDB .pending)).1 ∧
     ∃ s j u, s ∈ (expire_pending_tickets 30 10 (demoDB .pending)).1.seats ∧
       s.region = "A" ∧ s.seat_number = 1 ∧ s.transaction_id = some j ∧
       findTxn (expire_pending_tickets 30 10 (demoDB .pending)).1 j = some u ∧
       u.status = Status.pending ∧
       (Status.pending = Status.active ∨ Status.pending = Status.pending) ∧
       isStale 30 10 u = false) :=
  ⟨by decide,
    get_seats_sweeps_before_reading 30 10 (demoDB .pending) "A" 1 Status.pending
      (by decide)⟩

/-! ## C9 — input validation -/

/-- A seat entry fails the code's shape check exactly when it is not a dict
with both keys whose region is a string of at most 10 characters. -/
theorem seatEntryError_isSome_iff (sd : RawSeat) :
    (seatEntryError sd).isSome = true ↔ wellFormedSeat sd = false := by
  rcases sd with _ | ⟨reg, num⟩
  · simp [seatEntryError, wellFormedSeat]
  · rcases reg with _ | v
    · simp [seatEntryError, wellFormedSeat]
    · rcases num with _ | w
      · rcases v with s | m | _ <;> simp [seatEntryError, wellFormedSeat]
      · rcases v with s | m | _
        · by_cases hl : s.length > 10
          · simp [seatEntryError, wellFormedSeat, hl]
          · simp [seatEntryError, wellFormedSeat, hl]
        · simp [seatEntryError, wellFormedSeat]
        · simp [seatEntryError, wellFormedSeat]

theorem findSome?_isSome_of_mem {α β : Type} (f : α → Option β) (l : List α)
    (a : α) (ha : a ∈ l) (hf : (f a).isSome = true) :
    (l.findSome? f).isSome = true := by
  induction l with
  | nil => cases ha
  | cons x xs ih =>
    rcases List.mem_cons.1 ha with rfl | hxs
    · cases hfa : f a with
      | none => rw [hfa] at hf; cases hf
      | some b => simp only [List.findSome?_cons, hfa]; rfl
    · cases hfx : f x with
      | none => simp only [List.findSome?_cons, hfx]; exact ih hxs
      | some b => simp only [List.findSome?_cons, hfx]; rfl

/-- C9 amended:  `book` returns a validation error — before any seat is
claimed or any transaction created — whenever the sanitized name or phone
is empty, the seat list is empty or has more than 10 entries, the name
exceeds 100 or the phone 20 characters, or some seat entry is not a dict
carrying `region` and `number` keys with `region` a string of at most 10
characters.  (The *type* of `number` is not validated — see the
counterexample.) -/
theorem validate_rejects_malformed_input (isAdmin : Bool) (name phone h : String)
    (now : Int) (seats : List RawSeat) (db : DB)
    (hbad : name = "" ∨ phone = "" ∨ seats = [] ∨ 100 < name.length ∨
      20 < phone.length ∨ 10 < seats.length ∨
      ∃ sd ∈ seats, wellFormedSeat sd = false) :
    ∃ e, validate_book name phone seats = some e ∧
      book isAdmin name phone seats h now db = .error e := by
  have hsome : (validate_book name phone seats).isSome = true := by
    unfold validate_book
    by_cases h1 : (name == "" || phone == "" || seats.isEmpty) = true
    · simp [h1]
    · rw [if_neg h1]
      by_cases h2 : name.length > 100
      · simp [h2]
      · rw [if_neg h2]
        by_cases h3 : phone.length > 20
        · simp [h3]
        · rw [if_neg h3]
          by_cases h4 : seats.length > 10
          · simp [h4]
          · rw [if_neg h4]
            rcases hbad with hb | hb | hb | hb | hb | hb | ⟨sd, hsd, hwf⟩
            · exact absurd (by simp [hb]) h1
            · exact absurd (by simp [hb]) h1
            · exact absurd (by simp [hb]) h1
            · exact absurd hb h2
            · exact absurd hb h3
            · exact absurd hb h4
            · exact findSome?_isSome_of_mem seatEntryError seats sd hsd
                ((seatEntryError_isSome_iff sd).2 hwf)
  cases ho : validate_book name phone seats with
  | none => rw [ho] at hsome; cases hsome
  | some e => exact ⟨e, rfl, by simp only [book, ho]⟩

/-- Witness for C9 amended: an empty name is rejected with the required-field
validation error before anything is created. -/
theorem validate_rejects_malformed_input_witness :
    ∃ e, validate_book "" "1"
        [RawSeat.dict (some (.str "A")) (some (.num 1))] = some e ∧
      book false "" "1" [RawSeat.dict (some (.str "A")) (some (.num 1))] "h7" 0
        (demoDB .pending) = .error e :=
  validate_rejects_malformed_input false "" "1" "h7" 0
    [RawSeat.dict (some (.str "A")) (some (.num 1))] (demoDB .pending)
    (Or.inl rfl)

end Seats
